import Mathlib

/-!
Shallow embedding of the Webflow client core (class WebflowConnection):
the rate-limited single-flight request dispatcher, its response handler,
and the facade operations built on it (pagination fan-out, multi-locale
creation saga, deletion fan-out), translated from the TypeScript source.

JavaScript semantics relevant here and reflected in the model:
- Promise *resolution* unwraps thenables (resolving with a promise adopts
  it), but promise *rejection* does not: `reject(p)` makes `p` itself the
  rejection reason even when `p` is a promise.
- `Number(x) || 0` maps `NaN` and `0` to `0` and keeps any other numeric
  value, including negative ones.
- An `async` function that throws synchronously (for example a `TypeError`
  from reading a property of `undefined`) returns a rejected promise.
- Field-data payloads are opaque to the client: they are threaded through
  request bodies unchanged, so they are modelled as opaque JSON values.
-/

namespace CLH

/-- The three CMS locales of the `Locales` enum, with their string values. -/
inductive Locales where
  | ENGLISH
  | SPANISH
  | CHINESE
deriving DecidableEq, Repr

/-- The string value of each `Locales` enum member (the cmsLocaleId). -/
def Locales.value : Locales → String
  | .ENGLISH => "6501245cc8bf8aa9d483b104"
  | .SPANISH => "657ce37cdbd66c75792d9429"
  | .CHINESE => "65d667943dcdf4188e58f15e"

/-- JSON values: request bodies (what `JSON.stringify` serializes) and
decoded response payloads. -/
inductive Json where
  | null
  | bool (b : Bool)
  | num (n : Int)
  | str (s : String)
  | arr (elems : List Json)
  | obj (fields : List (String × Json))

/-- Reads a member of a JSON object, as JS property access would. -/
def Json.getField : Json → String → Option Json
  | .obj fields, k => fields.lookup k
  | _, _ => none

/-- HTTP methods used by the client; a request with no method is sent as
GET (`request.method || "GET"`). -/
inductive Method where
  | GET
  | POST
  | PATCH
  | DELETE
deriving DecidableEq, Repr

/-- The `RequestOptions` record passed to `fetch`: target path, optional
method, optional JSON body. -/
structure RequestOptions where
  endpoint : String
  method : Option Method := none
  body : Option Json := none

/-- A remote `Item` record as decoded from responses. -/
structure Item where
  id : String
  cmsLocaleId : Locales
  lastPublished : String := ""
  lastUpdated : String := ""
  createdOn : String := ""
  isArchived : Bool
  isDraft : Bool
  fieldData : Json

/-- The `ItemData` input record (`cmsLocaleId` is optional). `fieldData`
is opaque to the client and modelled as a JSON value; `PartialItemData`
(whose `fieldData` is a partial record) is therefore the same shape. -/
structure ItemData where
  cmsLocaleId : Option Locales := none
  isArchived : Bool
  isDraft : Bool
  fieldData : Json

/-- `PartialItemData` = `Omit<ItemData,"fieldData"> & Partial<FieldData>`;
with field data opaque this coincides with `ItemData`. -/
abbrev PartialItemData := ItemData

/-- Pagination block of a list response. -/
structure Pagination where
  limit : Nat
  offset : Nat
  total : Nat

/-- The `GetItemsResponse` shape returned by the list endpoint. -/
structure GetItemsResponse where
  items : List Item
  pagination : Pagination

/-- The `x-ratelimit-remaining` header of a response, classified by the
outcome of JS `Number()` on it: absent (`Number(null) = 0`), a
non-numeric string (`NaN`), or a numeric string with integer value `n`
(for example `Number("-5") = -5`). -/
inductive HeaderNum where
  | missing
  | nan
  | int (n : Int)
deriving DecidableEq, Repr

/-- `this.ratelimit = Number(response.headers.get("x-ratelimit-remaining")) || 0`:
`NaN` and `0` collapse to `0`, every other numeric value is stored as is.
The previous counter value is not an input. -/
def updateRatelimit : HeaderNum → Int
  | .missing => 0
  | .nan => 0
  | .int n => if n = 0 then 0 else n

/-- Does `needle` match at the head of `hay`? -/
def matchesAt : List Char → List Char → Bool
  | [], _ => true
  | _ :: _, [] => false
  | c :: cs, h :: hs => c == h && matchesAt cs hs

/-- Does `hay` contain `needle` as a contiguous segment? -/
def containsSeg (needle : List Char) : List Char → Bool
  | [] => matchesAt needle []
  | h :: t => matchesAt needle (h :: t) || containsSeg needle t

/-- JS `hay.includes(pat)`. -/
def strIncludes (hay pat : String) : Bool := containsSeg pat.toList hay.toList

/-- `response.headers.get("Content-Type")?.includes("application/json")`:
a missing header is falsy. -/
def includesJson : Option String → Bool
  | none => false
  | some s => strIncludes s "application/json"

/-- A completed HTTP response as observed by the dispatcher's handler:
status, Content-Type header, classified rate-limit header, and the two
possible decodings of the body. -/
structure Response where
  status : Nat
  contentType : Option String := none
  ratelimitRemaining : HeaderNum := .missing
  jsonBody : Json := .null
  textBody : String := ""

/-- A value passed to a promise's `reject`. Rejection does not unwrap
thenables: `reject(response.json())` makes the pending decode promise
itself the rejection reason, so the reason is `promiseOf v`, not `v`. -/
inductive JsReason where
  | value (v : Json)
  | promiseOf (v : Json)

/-- The settlement of a Call's completion handle. `resolve(response.json())`
adopts the thenable, so fulfilment carries the decoded value itself. -/
inductive Settled where
  | fulfilled (v : Json)
  | rejectedWith (r : JsReason)

/-- `response.headers.get("Content-Type")?.includes("application/json") ?
response.json() : response.text()` — the decoded value the body promise
resolves to. -/
def decodeBody (r : Response) : Json :=
  if includesJson r.contentType then r.jsonBody else .str r.textBody

/-- Outcome routing of the dispatcher's response callback: status above
299 rejects the handle with the (still pending) body decode, otherwise
the handle resolves and adopts the decode. -/
def handleResponse (r : Response) : Settled :=
  if r.status > 299 then .rejectedWith (.promiseOf (decodeBody r))
  else .fulfilled (decodeBody r)

/-- State of a `WebflowConnection`'s dispatcher, with ghost logs:
`dispatched` records submission indices in the order their network
exchanges were started, and `settledLog` records handle settlements.
Queued calls are paired with their submission index. -/
structure DState where
  queue : List (Nat × RequestOptions) := []
  isFetching : Bool := false
  ratelimit : Int := 120
  inflight : List (Nat × RequestOptions) := []
  dispatched : List Nat := []
  settledLog : List (Nat × Settled) := []
  nextIndex : Nat := 0

/-- One invocation of the private `request()` method: if a fetch is in
flight or the queue is empty, do nothing; otherwise shift the oldest
queued call, mark in-flight, and start its exchange. -/
def triggerStep (s : DState) : DState :=
  if s.isFetching then s
  else
    match s.queue with
    | [] => s
    | r :: rest =>
      { s with queue := rest, isFetching := true,
               inflight := s.inflight ++ [r], dispatched := s.dispatched ++ [r.1] }

/-- Externally visible dispatcher events: `enqueue` is the public `fetch`
wrapper (push then call `request()`); `trigger` is any later `request()`
invocation (such as the `setTimeout` callback scheduled after a
response); `respond` is the in-flight exchange completing with a
response; `netFail` is the in-flight exchange's fetch promise rejecting
(a transport failure). -/
inductive DEvent where
  | enqueue (r : RequestOptions)
  | trigger
  | respond (resp : Response)
  | netFail

/-- Dispatcher transition. On `respond`, the handler clears the in-flight
flag, overwrites the rate-limit counter from the header, and settles the
call's handle by status. On `netFail` the source attaches no rejection
handler to the fetch promise, so nothing runs: the flag is not cleared
and the handle is never settled; only the exchange itself is gone. -/
def step (s : DState) : DEvent → DState
  | .enqueue r =>
    triggerStep { s with queue := s.queue ++ [(s.nextIndex, r)], nextIndex := s.nextIndex + 1 }
  | .trigger => triggerStep s
  | .respond resp =>
    match s.inflight with
    | [] => s
    | r :: rest =>
      { s with isFetching := false,
               ratelimit := updateRatelimit resp.ratelimitRemaining,
               inflight := rest,
               settledLog := s.settledLog ++ [(r.1, handleResponse resp)] }
  | .netFail =>
    match s.inflight with
    | [] => s
    | _ :: rest => { s with inflight := rest }

/-- Run a sequence of dispatcher events. -/
def run (s : DState) : List DEvent → DState := List.foldl step s

/-- A fresh connection: empty queue, not fetching, optimistic quota 120. -/
def initState : DState := {}

/-!
Facade operations. The dispatcher executes queued calls one at a time in
submission order (proved below for the event machine), so an operation
that enqueues calls and awaits their settlements is modelled as a
sequential computation over an environment function mapping each issued
request to its settlement, while recording the trace of issued requests
in order. Fan-out (`Promise.all` over calls enqueued in one synchronous
burst) issues every request before awaiting any result.
-/

/-- `Promise.all` over already-issued calls: fulfils with all values in
submission order, or rejects with the first rejection. -/
def collectAll {α : Type} : List (Except JsReason α) → Except JsReason (List α)
  | [] => .ok []
  | .error e :: _ => .error e
  | .ok a :: rest => (collectAll rest).map (a :: ·)

/-- Bool test for settlement of an `Except`. -/
def isOkE {α : Type} : Except JsReason α → Bool
  | .ok _ => true
  | .error _ => false

/-- `ceilDiv a b` is JS `Math.ceil(a / b)` for naturals. -/
def ceilDiv (a b : Nat) : Nat := (a + b - 1) / b

/-- The list request of `fetchItems`: endpoint template
`collections/COL/items?offset=OFF&limit=LIM`, default method (GET). -/
def fetchItemsReq (c : String) (limit offset : Nat) : RequestOptions :=
  { endpoint := "collections/" ++ c ++ "/items?offset=" ++ toString offset
      ++ "&limit=" ++ toString limit }

/-- `fetchAllItems`: fetch the first page, compute the remaining page
count from the reported total with page size 100, enqueue one call per
remaining page (offsets 100, 200, ...), await all, and append each
page's items (in page order, which is settlement order under the FIFO
dispatcher) after the first page's items. -/
def fetchAllItems (env : RequestOptions → Except JsReason GetItemsResponse)
    (c : String) : Except JsReason (List Item) × List RequestOptions :=
  let first := fetchItemsReq c 100 0
  match env first with
  | .error e => (.error e, [first])
  | .ok resp0 =>
    let extraReqs := ((List.range (ceilDiv resp0.pagination.total 100)).drop 1).map
      (fun i => fetchItemsReq c 100 (i * 100))
    match collectAll (extraReqs.map env) with
    | .error e => (.error e, first :: extraReqs)
    | .ok pages =>
      (.ok (resp0.items ++ (pages.map GetItemsResponse.items).flatten), first :: extraReqs)

/-- One DELETE request of `deleteItem`: endpoint template
`collections/COL/items/ITEM(/live when not live)?cmsLocaleIds=LOC`.
The live flag is intentionally inverted in the source: the `/live`
(unpublish) path is used when `live` is false. -/
def deleteRequest (c itemId : String) (l : Locales) (live : Bool) : RequestOptions :=
  { endpoint := "collections/" ++ c ++ "/items/" ++ itemId
      ++ (if live then "" else "/live") ++ "?cmsLocaleIds=" ++ l.value,
    method := some .DELETE }

/-- `deleteItem`: one DELETE call per requested locale (the upstream API
only accepts a single locale per request), all enqueued together and
fanned in with `Promise.all`. Defaults: all locales, `live = true`. -/
def deleteItem (env : RequestOptions → Except JsReason Json) (c itemId : String)
    (localeIds : List Locales := [.ENGLISH, .SPANISH, .CHINESE]) (live : Bool := true) :
    Except JsReason (List Json) × List RequestOptions :=
  (collectAll (localeIds.map (fun l => env (deleteRequest c itemId l live))),
   localeIds.map (fun l => deleteRequest c itemId l live))

/-- The JSON object a whole `ItemData` value serializes to (property
order per the interface declaration; an absent optional `cmsLocaleId`
is dropped by `JSON.stringify`). -/
def encodeItemData (d : ItemData) : Json :=
  .obj ((match d.cmsLocaleId with
         | some l => [("cmsLocaleId", Json.str l.value)]
         | none => []) ++
        [("isArchived", .bool d.isArchived), ("isDraft", .bool d.isDraft),
         ("fieldData", d.fieldData)])

/-- The request built by `createItem`. Its body is
`{isArchived: itemData.isArchived, isDraft: itemData.isDraft, fieldData: itemData}`:
the `fieldData` member is the whole `itemData` object, not
`itemData.fieldData`. -/
def createItemRequest (c : String) (d : ItemData) (live : Bool) : RequestOptions :=
  { endpoint := "collections/" ++ c ++ "/items" ++ (if live then "/live" else ""),
    method := some .POST,
    body := some (.obj [("isArchived", .bool d.isArchived),
                        ("isDraft", .bool d.isDraft),
                        ("fieldData", encodeItemData d)]) }

/-- `createItem`: enqueue the POST and return its settlement. -/
def createItem (env : RequestOptions → Except JsReason Item) (c : String)
    (d : ItemData) (live : Bool := true) : Except JsReason Item × RequestOptions :=
  (env (createItemRequest c d live), createItemRequest c d live)

/-- The request built by `updateItem`: PATCH to
`collections/COL/items/ITEM(/live when live)` with body
`{isArchived, isDraft, fieldData, cmsLocaleId}` (an undefined
`cmsLocaleId` is dropped by `JSON.stringify`). -/
def updateItemRequest (c itemId : String) (d : PartialItemData) (live : Bool) :
    RequestOptions :=
  { endpoint := "collections/" ++ c ++ "/items/" ++ itemId
      ++ (if live then "/live" else ""),
    method := some .PATCH,
    body := some (.obj ([("isArchived", .bool d.isArchived),
                         ("isDraft", .bool d.isDraft),
                         ("fieldData", d.fieldData)] ++
                        (match d.cmsLocaleId with
                         | some l => [("cmsLocaleId", Json.str l.value)]
                         | none => []))) }

/-- The request built by `publishItems`. -/
def publishRequest (c : String) (ids : List String) : RequestOptions :=
  { endpoint := "collections/" ++ c ++ "/items/publish",
    method := some .POST,
    body := some (.obj [("itemIds", .arr (ids.map Json.str))]) }

/-- The request built by the bulk-create step of `createItemAllLocales`:
POST to `collections/COL/items/bulk` (the bulk endpoint has no live
variant), seeded with the primary locale's flags and field data, and
naming every requested locale in `cmsLocaleIds` (`Object.keys`). -/
def bulkCreateRequest (c : String) (d : PartialItemData) (keys : List Locales) :
    RequestOptions :=
  { endpoint := "collections/" ++ c ++ "/items/bulk",
    method := some .POST,
    body := some (.obj [("isArchived", .bool d.isArchived),
                        ("isDraft", .bool d.isDraft),
                        ("fieldData", d.fieldData),
                        ("cmsLocaleIds", .arr (keys.map (fun l => Json.str l.value)))]) }

/-- `{cmsLocaleId: locale, ...itemData[locale]}`: the spread overrides
the locale only when the record itself carries a `cmsLocaleId`. -/
def withLocale (l : Locales) (d : PartialItemData) : PartialItemData :=
  { d with cmsLocaleId := some (d.cmsLocaleId.getD l) }

/-- Environment for the creation saga: the settlements of the bulk
create, of each locale update, and of the trailing publish. -/
structure CreateEnv where
  bulk : RequestOptions → Except JsReason (List Item)
  update : RequestOptions → Except JsReason Item
  publish : RequestOptions → Except JsReason Json

/-- Failure of the creation saga's returned promise: a synchronously
thrown `TypeError` (reading a property of `undefined`), or a rejection
propagated from one of its calls. -/
inductive SagaErr where
  | typeError
  | upstream (r : JsReason)

/-- Observable outcome of one `createItemAllLocales` run: the settlement
of the returned promise, the ordered trace of issued requests, and the
side-channel settlement of the detached trailing publish (observed only
by `console.log` or as an unhandled rejection, never by the caller). -/
structure SagaResult where
  result : Except SagaErr (List Item)
  trace : List RequestOptions
  publishOutcome : Option (Except JsReason Json)

/-- `createItemAllLocales`. The locale map is an association list in key
(insertion) order. Reading `itemData[PRIMARY_LOCALE].isArchived` with
the primary locale absent throws before any call is made. After the
bulk create settles, the item tagged with the primary locale is the
anchor; the non-null assertion on `find` is modelled as a `TypeError`
at the first dereference of the anchor. One non-publishing update per
remaining locale is then issued against the anchor's id, and the result
is `Promise.all([mainItem, ...updates])`. When `live` is requested, the
publish of the anchor id is chained off the already-settled result as a
detached step whose outcome never reaches the returned promise. -/
def createItemAllLocales (env : CreateEnv) (c : String)
    (itemData : List (Locales × PartialItemData)) (live : Bool) (primary : Locales) :
    SagaResult :=
  match itemData.lookup primary with
  | none => { result := .error .typeError, trace := [], publishOutcome := none }
  | some pd =>
    let bulkReq := bulkCreateRequest c pd (itemData.map Prod.fst)
    match env.bulk bulkReq with
    | .error e => { result := .error (.upstream e), trace := [bulkReq], publishOutcome := none }
    | .ok items =>
      match items.find? (fun it => it.cmsLocaleId == primary) with
      | none => { result := .error .typeError, trace := [bulkReq], publishOutcome := none }
      | some mainItem =>
        let secondaries := itemData.filter (fun p => p.1 != primary)
        let updReqs := secondaries.map
          (fun p => updateItemRequest c mainItem.id (withLocale p.1 p.2) false)
        match collectAll (updReqs.map env.update) with
        | .error e =>
          { result := .error (.upstream e), trace := bulkReq :: updReqs,
            publishOutcome := none }
        | .ok updated =>
          if live then
            let pubReq := publishRequest c [mainItem.id]
            { result := .ok (mainItem :: updated), trace := bulkReq :: updReqs ++ [pubReq],
              publishOutcome := some (env.publish pubReq) }
          else
            { result := .ok (mainItem :: updated), trace := bulkReq :: updReqs,
              publishOutcome := none }

/-- Dispatcher invariant: the exchanges started so far, followed by the
still-queued submission indices, list every submission index in order
(FIFO, no reordering, no skipping); at most one exchange is in flight;
and an idle flag means no exchange is in flight. -/
def DInv (s : DState) : Prop :=
  s.dispatched ++ s.queue.map Prod.fst = List.range s.nextIndex ∧
  s.inflight.length ≤ 1 ∧
  (s.isFetching = false → s.inflight = [])

/-- A dispatcher stuck after a transport failure: the in-flight flag was
never cleared although no exchange is outstanding. -/
def Stalled (s : DState) : Prop := s.isFetching = true ∧ s.inflight = []

/-- A sample request (concrete inputs for witnesses). -/
def reqW0 : RequestOptions := { endpoint := "collections/c0/items" }

/-- A second sample request. -/
def reqW1 : RequestOptions := { endpoint := "collections/c0/items/i1", method := some .DELETE }

/-- Dispatcher state right after one call was enqueued and dispatched. -/
def stateAfterDispatch : DState := run initState [.enqueue reqW0]

/-- A response whose rate-limit header reads `-5`
(`Number("-5") = -5`, and `-5 || 0 = -5`). -/
def respNegative : Response := { status := 200, ratelimitRemaining := .int (-5) }

/-- A sample decoded JSON error payload. -/
def errPayload : Json := .obj [("message", .str "Validation Failure")]

/-- A sample upstream rejection response: status 400, JSON body. -/
def errResponse : Response :=
  { status := 400, contentType := some "application/json",
    ratelimitRemaining := .int 100, jsonBody := errPayload }

/-- Sample field data (concrete inputs for witnesses). -/
def fdW : Json := .obj [("name", .str "Example Class")]

/-- Sample primary-locale item data. -/
def daW : PartialItemData := { isArchived := false, isDraft := false, fieldData := fdW }

/-- Sample Spanish item data. -/
def dbW : PartialItemData :=
  { isArchived := false, isDraft := false, fieldData := .obj [("name", .str "Ejemplo")] }

/-- Sample Chinese item data. -/
def dcW : PartialItemData :=
  { isArchived := false, isDraft := false, fieldData := .obj [("name", .str "Sample ZH")] }

/-- Sample anchor item returned by the bulk create. -/
def anchorW : Item :=
  { id := "item1", cmsLocaleId := .ENGLISH, isArchived := false, isDraft := false,
    fieldData := fdW }

/-- Sample item returned by locale updates (same shared id as the anchor). -/
def itemBW : Item :=
  { id := "item1", cmsLocaleId := .SPANISH, isArchived := false, isDraft := false,
    fieldData := .null }

/-- Sample creation-saga environment: bulk create returns the anchor,
updates succeed, the trailing publish fails (as in the repository's own
observed run, a validation error). -/
def createEnvW : CreateEnv :=
  { bulk := fun _ => .ok [anchorW],
    update := fun _ => .ok itemBW,
    publish := fun _ => .error (.value (.str "ValidationError: Validation Failure")) }

/-- Sample item for pagination witnesses. -/
def itemAt (n : Nat) : Item :=
  { id := toString n, cmsLocaleId := .ENGLISH, isArchived := false, isDraft := false,
    fieldData := .null }

/-- A 250-item collection. -/
def allItemsW : List Item := (List.range 250).map itemAt

/-- Pagination environment serving 100-item slices of the collection. -/
def pageEnvW : RequestOptions → Except JsReason GetItemsResponse := fun req =>
  if req.endpoint = (fetchItemsReq "col" 100 100).endpoint then
    .ok { items := (allItemsW.drop 100).take 100,
          pagination := { limit := 100, offset := 100, total := 250 } }
  else if req.endpoint = (fetchItemsReq "col" 100 200).endpoint then
    .ok { items := (allItemsW.drop 200).take 100,
          pagination := { limit := 100, offset := 200, total := 250 } }
  else
    .ok { items := allItemsW.take 100,
          pagination := { limit := 100, offset := 0, total := 250 } }

/-- Deletion environment where every DELETE succeeds. -/
def deleteEnvW : RequestOptions → Except JsReason Json := fun _ => .ok .null

/-- A publish environment that always fails with the validation error
the repository itself records as an observed publish response. -/
def failingPublish : RequestOptions → Except JsReason Json :=
  fun _ => .error (.value (.str "ValidationError: Validation Failure"))

/-- A `request()` invocation preserves the dispatcher invariant. -/
theorem dinv_trigger {s : DState} (h : DInv s) : DInv (triggerStep s) := by
  obtain ⟨h1, h2, h3⟩ := h
  unfold triggerStep
  split
  next => exact ⟨h1, h2, h3⟩
  next hf =>
    split
    next => exact ⟨h1, h2, h3⟩
    next r rest hq =>
      simp only [Bool.not_eq_true] at hf
      rw [hq] at h1
      simp only [List.map_cons] at h1
      refine ⟨?_, ?_, ?_⟩
      · rw [List.append_assoc]
        simpa using h1
      · simp [h3 hf]
      · simp

/-- Every dispatcher event preserves the invariant. -/
theorem dinv_step {s : DState} (h : DInv s) (e : DEvent) : DInv (step s e) := by
  obtain ⟨h1, h2, h3⟩ := h
  cases e with
  | enqueue r =>
    apply dinv_trigger
    refine ⟨?_, h2, h3⟩
    simp only [List.map_append, List.map_cons, List.map_nil]
    rw [← List.append_assoc, h1, List.range_succ]
  | trigger => exact dinv_trigger ⟨h1, h2, h3⟩
  | respond resp =>
    cases hq : s.inflight with
    | nil => simp only [step, hq]; exact ⟨h1, h2, h3⟩
    | cons r rest =>
      have hlen : (r :: rest).length ≤ 1 := by rw [← hq]; exact h2
      have hr : rest = [] := by
        simp only [List.length_cons] at hlen
        exact List.length_eq_zero.mp (by omega)
      subst hr
      simp only [step, hq]
      exact ⟨h1, by simp, by simp⟩
  | netFail =>
    cases hq : s.inflight with
    | nil => simp only [step, hq]; exact ⟨h1, h2, h3⟩
    | cons r rest =>
      have hlen : (r :: rest).length ≤ 1 := by rw [← hq]; exact h2
      have hr : rest = [] := by
        simp only [List.length_cons] at hlen
        exact List.length_eq_zero.mp (by omega)
      subst hr
      simp only [step, hq]
      exact ⟨h1, by simp, by simp⟩

/-- The invariant holds along any run. -/
theorem dinv_run {s : DState} (h : DInv s) (evs : List DEvent) : DInv (run s evs) := by
  induction evs generalizing s with
  | nil => exact h
  | cons e t ih => exact ih (dinv_step h e)

/-- The invariant holds from a fresh connection. -/
theorem dinv_init : DInv initState := by
  refine ⟨rfl, by simp [initState], by simp [initState]⟩

/-- From the invariant: the started exchanges are exactly submissions
0, 1, ..., k-1 in order. -/
theorem dispatched_fifo {s : DState} (h : DInv s) :
    s.dispatched = List.range s.dispatched.length := by
  obtain ⟨h1, -, -⟩ := h
  have hlen : s.dispatched.length ≤ s.nextIndex := by
    have := congrArg List.length h1
    simp at this
    omega
  calc s.dispatched
      = (s.dispatched ++ s.queue.map Prod.fst).take s.dispatched.length :=
        (List.take_left ..).symm
    _ = (List.range s.nextIndex).take s.dispatched.length := by rw [h1]
    _ = List.range s.dispatched.length := by
        rw [List.take_range, Nat.min_eq_left hlen]

/-- Unfolding lemma for `run`. -/
theorem run_cons (s : DState) (e : DEvent) (t : List DEvent) :
    run s (e :: t) = run (step s e) t := rfl

/-- Once a dispatcher is stalled (in-flight flag set, nothing on the
wire), every further event leaves the flag set, the wire empty, and the
settlement log and dispatch log untouched; only the queue can grow. -/
theorem stalled_run {s : DState} (h : Stalled s) (evs : List DEvent) :
    Stalled (run s evs) ∧
    (run s evs).settledLog = s.settledLog ∧
    (run s evs).dispatched = s.dispatched := by
  induction evs generalizing s with
  | nil => exact ⟨h, rfl, rfl⟩
  | cons e t ih =>
    obtain ⟨hf, hi⟩ := h
    have hstep : Stalled (step s e) ∧ (step s e).settledLog = s.settledLog ∧
        (step s e).dispatched = s.dispatched := by
      cases e with
      | enqueue r => simp [step, triggerStep, hf, Stalled, hi]
      | trigger => simp [step, triggerStep, hf, Stalled, hi]
      | respond resp => simp [step, hi, Stalled, hf]
      | netFail => simp [step, hi, Stalled, hf]
    obtain ⟨h1, h2, h3⟩ := hstep
    obtain ⟨g1, g2, g3⟩ := ih h1
    exact ⟨g1, by rw [run_cons, g2, h2], by rw [run_cons, g3, h3]⟩

/-- C1 (code bug witness): a transport failure of the only dispatched
call leaves its completion handle unsettled forever — the settlement log
stays empty under every continuation of the run — and leaves the
dispatcher marked in-flight although nothing is on the wire, so no
queued or future call is ever dispatched again (the dispatch log stays
at the single failed call). The response handler is attached with
`.then` alone, so the claimed rejection of the handle with the transport
error never happens. -/
theorem netfail_unsettled_stall (r : RequestOptions) (evs : List DEvent) :
    (run (run initState [.enqueue r, .netFail]) evs).settledLog = [] ∧
    (run (run initState [.enqueue r, .netFail]) evs).isFetching = true ∧
    (run (run initState [.enqueue r, .netFail]) evs).inflight = [] ∧
    (run (run initState [.enqueue r, .netFail]) evs).dispatched = [0] := by
  have hbase : run initState [.enqueue r, .netFail] =
      { queue := [], isFetching := true, ratelimit := 120, inflight := [],
        dispatched := [0], settledLog := [], nextIndex := 1 } := by
    simp [run, step, triggerStep, initState]
  obtain ⟨⟨g1, g2⟩, g3, g4⟩ := stalled_run (s := run initState [.enqueue r, .netFail])
    (by rw [hbase]; exact ⟨rfl, rfl⟩) evs
  refine ⟨?_, g1, g2, ?_⟩
  · rw [g3, hbase]
  · rw [g4, hbase]

/-- C3: for every sequence of dispatcher events from a fresh connection,
the network exchanges are started exactly in submission order (the
dispatch log is 0, 1, ..., k-1) and at most one exchange is ever in
flight; moreover a `request()` cycle triggered while a fetch is in
flight, or while the queue is empty, changes nothing. -/
theorem dispatcher_fifo_single_flight :
    (∀ evs : List DEvent,
        (run initState evs).dispatched =
          List.range (run initState evs).dispatched.length ∧
        (run initState evs).inflight.length ≤ 1) ∧
    (∀ s : DState, s.isFetching = true → step s .trigger = s) ∧
    (∀ s : DState, s.queue = [] → step s .trigger = s) := by
  refine ⟨fun evs => ?_, fun s hf => ?_, fun s hq => ?_⟩
  · have h := dinv_run dinv_init evs
    exact ⟨dispatched_fifo h, h.2.1⟩
  · simp [step, triggerStep, hf]
  · cases hf : s.isFetching <;> simp [step, triggerStep, hf, hq]

/-- Witness for C3 at concrete inputs: a three-event run dispatches in
FIFO order with at most one call in flight, and a trigger on an
in-flight dispatcher is a no-op. -/
theorem dispatcher_fifo_single_flight_witness :
    ((run initState [.enqueue reqW0, .enqueue reqW1, .respond respNegative]).dispatched =
      List.range (run initState
        [.enqueue reqW0, .enqueue reqW1, .respond respNegative]).dispatched.length ∧
     (run initState
        [.enqueue reqW0, .enqueue reqW1, .respond respNegative]).inflight.length ≤ 1) ∧
    stateAfterDispatch.isFetching = true ∧
    step stateAfterDispatch .trigger = stateAfterDispatch :=
  ⟨dispatcher_fifo_single_flight.1 [.enqueue reqW0, .enqueue reqW1, .respond respNegative],
   rfl,
   dispatcher_fifo_single_flight.2.1 stateAfterDispatch rfl⟩

/-- C2 counterexample: for a concrete status-400 response with a JSON
body, the handle is rejected with the *pending decode promise*
(`request.reject(response.json())` — rejection does not adopt
thenables), which is not the decoded payload value itself, so the
rejection reason the caller receives is not the server's decoded error
payload. -/
theorem reject_reason_not_decoded_body :
    handleResponse errResponse = .rejectedWith (.promiseOf errPayload) ∧
    JsReason.promiseOf errPayload ≠ JsReason.value errPayload :=
  ⟨rfl, fun h => nomatch h⟩

/-- C2 amended: every response with status above 299 rejects the Call's
handle with a promise of the decoded body — the JSON value when the
Content-Type indicates JSON, otherwise the raw text — not wrapped in
any generic exception, but as a promise of the payload rather than the
payload value itself. -/
theorem upstream_rejection_decoded_body (resp : Response) (h : resp.status > 299) :
    handleResponse resp =
      .rejectedWith (.promiseOf
        (if includesJson resp.contentType then resp.jsonBody else .str resp.textBody)) := by
  simp [handleResponse, decodeBody, h]

/-- Witness for the amended C2 at the concrete status-400 response. -/
theorem upstream_rejection_decoded_body_witness :
    errResponse.status > 299 ∧
    handleResponse errResponse =
      .rejectedWith (.promiseOf
        (if includesJson errResponse.contentType then errResponse.jsonBody
         else .str errResponse.textBody)) :=
  ⟨by decide, upstream_rejection_decoded_body errResponse (by decide)⟩

/-- C6 counterexample: a completed exchange whose rate-limit header
reads `-5` leaves the Rate Limit State negative
(`Number("-5") || 0 = -5`), refuting "it is never negative". -/
theorem ratelimit_negative_counterexample :
    (step stateAfterDispatch (.respond respNegative)).ratelimit = -5 ∧
    (step stateAfterDispatch (.respond respNegative)).ratelimit < 0 := by
  constructor <;>
    simp [stateAfterDispatch, run, step, triggerStep, initState, respNegative,
      updateRatelimit]

/-- C6 amended: after every completed exchange the Rate Limit State is
`Number(header) || 0`, computed from the response header alone (never by
decrementing the previous value): 0 when the header is missing,
non-numeric, or reads 0, and otherwise the header's numeric value — so
it is nonnegative whenever the server reports a nonnegative value, but a
negative reported value is stored negative. -/
theorem ratelimit_header_semantics (s : DState) (resp : Response)
    (p : Nat × RequestOptions) (rest : List (Nat × RequestOptions))
    (h : s.inflight = p :: rest) :
    (step s (.respond resp)).ratelimit = updateRatelimit resp.ratelimitRemaining ∧
    updateRatelimit .missing = 0 ∧
    updateRatelimit .nan = 0 ∧
    (∀ n : Int, updateRatelimit (.int n) = if n = 0 then 0 else n) ∧
    (∀ n : Int, 0 ≤ n → 0 ≤ updateRatelimit (.int n)) := by
  refine ⟨by simp [step, h], rfl, rfl, fun n => rfl, fun n hn => ?_⟩
  simp only [updateRatelimit]
  split
  · omega
  · exact hn

/-- Witness for the amended C6 at a concrete in-flight dispatcher and
the concrete `-5` header response. -/
theorem ratelimit_header_semantics_witness :
    stateAfterDispatch.inflight = (0, reqW0) :: [] ∧
    (step stateAfterDispatch (.respond respNegative)).ratelimit =
      updateRatelimit respNegative.ratelimitRemaining :=
  ⟨rfl, (ratelimit_header_semantics stateAfterDispatch respNegative (0, reqW0) [] rfl).1⟩

/-- `Except.map` preserves settlement status. -/
theorem isOkE_map {α β : Type} (f : α → β) (x : Except JsReason α) :
    isOkE (x.map f) = isOkE x := by
  cases x <;> rfl

/-- `Promise.all` fulfils exactly when every constituent fulfils. -/
theorem isOkE_collectAll {α : Type} (xs : List (Except JsReason α)) :
    isOkE (collectAll xs) = xs.all isOkE := by
  induction xs with
  | nil => rfl
  | cons x t ih =>
    cases x with
    | error e => simp [collectAll, isOkE]
    | ok a =>
      show isOkE (Except.map _ (collectAll t)) = _
      rw [isOkE_map, ih]
      simp [isOkE]

/-- C7: when the supplied locale map lacks the primary locale, the saga
rejects (with the `TypeError` thrown by reading a property of the
missing entry) and its trace is empty — no call is enqueued and no
network exchange is issued. -/
theorem create_missing_primary_rejects (env : CreateEnv) (c : String)
    (itemData : List (Locales × PartialItemData)) (live : Bool) (primary : Locales)
    (h : itemData.lookup primary = none) :
    createItemAllLocales env c itemData live primary =
      { result := .error .typeError, trace := [], publishOutcome := none } := by
  simp [createItemAllLocales, h]

/-- Witness for C7: a map holding only Spanish data, with English as the
primary locale. -/
theorem create_missing_primary_rejects_witness :
    ([(Locales.SPANISH, dbW)].lookup Locales.ENGLISH = none) ∧
    createItemAllLocales createEnvW "col" [(Locales.SPANISH, dbW)] true Locales.ENGLISH =
      { result := .error .typeError, trace := [], publishOutcome := none } :=
  ⟨rfl, create_missing_primary_rejects createEnvW "col" [(Locales.SPANISH, dbW)] true
    Locales.ENGLISH rfl⟩

/-- C9: `deleteItem` issues exactly one DELETE per requested locale (in
request order), the fan-in fulfils exactly when every one of the calls
fulfils, and the live flag is inverted as the source intends: with
`live = false` every call targets the `/live` (unpublish) path, with
`live = true` the plain delete path. -/
theorem delete_fanout (env : RequestOptions → Except JsReason Json)
    (c itemId : String) (localeIds : List Locales) (live : Bool) :
    (deleteItem env c itemId localeIds live).2 =
      localeIds.map (fun l => deleteRequest c itemId l live) ∧
    (deleteItem env c itemId localeIds live).2.length = localeIds.length ∧
    (∀ l : Locales,
      deleteRequest c itemId l false =
        { endpoint := "collections/" ++ c ++ "/items/" ++ itemId ++ "/live"
            ++ "?cmsLocaleIds=" ++ l.value,
          method := some .DELETE } ∧
      deleteRequest c itemId l true =
        { endpoint := "collections/" ++ c ++ "/items/" ++ itemId
            ++ "?cmsLocaleIds=" ++ l.value,
          method := some .DELETE }) ∧
    isOkE (deleteItem env c itemId localeIds live).1 =
      localeIds.all (fun l => isOkE (env (deleteRequest c itemId l live))) := by
  refine ⟨rfl, by simp [deleteItem], fun l => ⟨rfl, by simp [deleteRequest]⟩, ?_⟩
  show isOkE (collectAll _) = _
  rw [isOkE_collectAll]
  induction localeIds with
  | nil => rfl
  | cons l t ih => simp [ih]

/-- Witness for C9 at two locales, both flag values, and a succeeding
environment. -/
theorem delete_fanout_witness :
    (deleteItem deleteEnvW "col" "item1" [Locales.ENGLISH, Locales.SPANISH] false).2.length = 2 ∧
    (deleteItem deleteEnvW "col" "item1" [Locales.ENGLISH, Locales.SPANISH] true).2.length = 2 :=
  ⟨(delete_fanout deleteEnvW "col" "item1" [Locales.ENGLISH, Locales.SPANISH] false).2.1.trans rfl,
   (delete_fanout deleteEnvW "col" "item1" [Locales.ENGLISH, Locales.SPANISH] true).2.1.trans rfl⟩

/-- Any value stored in a JSON object is strictly smaller than the
object. -/
theorem json_sizeOf_mem (fs : List (String × Json)) (k : String) (j : Json)
    (h : (k, j) ∈ fs) : sizeOf j < sizeOf (Json.obj fs) := by
  induction fs with
  | nil => cases h
  | cons p t ih =>
    rcases List.mem_cons.mp h with h1 | h1
    · subst h1
      simp only [Json.obj.sizeOf_spec, List.cons.sizeOf_spec, Prod.mk.sizeOf_spec]
      omega
    · have := ih h1
      simp only [Json.obj.sizeOf_spec, List.cons.sizeOf_spec] at this ⊢
      omega

/-- The serialization of a whole `ItemData` is never its own `fieldData`
member (it strictly contains it). -/
theorem encodeItemData_ne_fieldData (d : ItemData) : encodeItemData d ≠ d.fieldData := by
  have hmem : ("fieldData", d.fieldData) ∈
      ((match d.cmsLocaleId with
        | some l => [("cmsLocaleId", Json.str l.value)]
        | none => []) ++
       [("isArchived", Json.bool d.isArchived), ("isDraft", Json.bool d.isDraft),
        ("fieldData", d.fieldData)]) := by
    cases d.cmsLocaleId <;> simp
  have hlt : sizeOf d.fieldData < sizeOf (encodeItemData d) :=
    json_sizeOf_mem _ "fieldData" d.fieldData hmem
  intro h
  rw [h] at hlt
  exact absurd hlt (lt_irrefl _)

/-- C10: the body enqueued by `createItem` carries the *entire*
`itemData` object in its `fieldData` member (an object which itself
holds `isArchived`, `isDraft` and the nested `fieldData`), never
`itemData.fieldData`, while the top-level `isArchived`/`isDraft` are
copied from `itemData`; the bulk-create body, by contrast, carries the
primary locale's `fieldData` member itself. -/
theorem create_item_body_whole_itemdata (c : String) (d : ItemData) (live : Bool)
    (pd : PartialItemData) (keys : List Locales) :
    (createItemRequest c d live).body =
      some (Json.obj [("isArchived", .bool d.isArchived), ("isDraft", .bool d.isDraft),
                      ("fieldData", encodeItemData d)]) ∧
    (Json.obj [("isArchived", Json.bool d.isArchived), ("isDraft", Json.bool d.isDraft),
               ("fieldData", encodeItemData d)]).getField "fieldData" =
      some (encodeItemData d) ∧
    (Json.obj [("isArchived", Json.bool d.isArchived), ("isDraft", Json.bool d.isDraft),
               ("fieldData", encodeItemData d)]).getField "isArchived" =
      some (Json.bool d.isArchived) ∧
    (Json.obj [("isArchived", Json.bool d.isArchived), ("isDraft", Json.bool d.isDraft),
               ("fieldData", encodeItemData d)]).getField "isDraft" =
      some (Json.bool d.isDraft) ∧
    encodeItemData d =
      Json.obj ((match d.cmsLocaleId with
                 | some l => [("cmsLocaleId", Json.str l.value)]
                 | none => []) ++
                [("isArchived", Json.bool d.isArchived), ("isDraft", Json.bool d.isDraft),
                 ("fieldData", d.fieldData)]) ∧
    encodeItemData d ≠ d.fieldData ∧
    (bulkCreateRequest c pd keys).body =
      some (Json.obj [("isArchived", Json.bool pd.isArchived),
                      ("isDraft", Json.bool pd.isDraft),
                      ("fieldData", pd.fieldData),
                      ("cmsLocaleIds", .arr (keys.map (fun l => Json.str l.value)))]) ∧
    (Json.obj [("isArchived", Json.bool pd.isArchived), ("isDraft", Json.bool pd.isDraft),
               ("fieldData", pd.fieldData),
               ("cmsLocaleIds", Json.arr (keys.map (fun l => Json.str l.value)))]).getField
        "fieldData" = some pd.fieldData :=
  ⟨rfl, rfl, rfl, rfl, rfl, encodeItemData_ne_fieldData d, rfl, rfl⟩

/-- Witness for C10 at concrete inputs. -/
theorem create_item_body_whole_itemdata_witness :
    (createItemRequest "col" daW true).body =
      some (Json.obj [("isArchived", .bool daW.isArchived), ("isDraft", .bool daW.isDraft),
                      ("fieldData", encodeItemData daW)]) ∧
    encodeItemData daW ≠ daW.fieldData :=
  ⟨(create_item_body_whole_itemdata "col" daW true daW []).1,
   (create_item_body_whole_itemdata "col" daW true daW []).2.2.2.2.2.1⟩

/-- C8: on a collection whose first page reports 250 items (page size
100), `fetchAllItems` issues exactly three list calls, at offsets 0, 100
and 200, and fulfils with the first page's items followed by the
remaining pages' items in offset-ascending order — when the server
serves consistent 100-item slices of a 250-item collection, the result
is exactly that collection, with no duplicate and no gap. -/
theorem pagination_fanout (env : RequestOptions → Except JsReason GetItemsResponse)
    (c : String) (L : List Item) (r0 r1 r2 : GetItemsResponse)
    (h0 : env (fetchItemsReq c 100 0) = .ok r0)
    (ht : r0.pagination.total = 250)
    (hi0 : r0.items = L.take 100)
    (h1 : env (fetchItemsReq c 100 100) = .ok r1)
    (hi1 : r1.items = (L.drop 100).take 100)
    (h2 : env (fetchItemsReq c 100 200) = .ok r2)
    (hi2 : r2.items = (L.drop 200).take 100)
    (hL : L.length = 250) :
    (fetchAllItems env c).2 =
      [fetchItemsReq c 100 0, fetchItemsReq c 100 100, fetchItemsReq c 100 200] ∧
    (fetchAllItems env c).1 = .ok (r0.items ++ (r1.items ++ r2.items)) ∧
    (fetchAllItems env c).1 = .ok L := by
  have hE : ((List.range (ceilDiv r0.pagination.total 100)).drop 1).map
      (fun i => fetchItemsReq c 100 (i * 100)) =
      [fetchItemsReq c 100 100, fetchItemsReq c 100 200] := by
    rw [ht]
    have h3 : ceilDiv 250 100 = 3 := rfl
    rw [h3]
    rfl
  have hmerge : L.take 100 ++ ((L.drop 100).take 100 ++ (L.drop 200).take 100) = L := by
    have d2 : (L.drop 200).take 100 = L.drop 200 :=
      List.take_of_length_le (by rw [List.length_drop, hL]; omega)
    have d1 : (L.drop 100).drop 100 = L.drop 200 := by rw [List.drop_drop]
    rw [d2, ← d1, List.take_append_drop, List.take_append_drop]
  unfold fetchAllItems
  simp only [h0, hE, List.map_cons, List.map_nil, h1, h2]
  have hcol : collectAll [Except.ok r1, Except.ok r2] = .ok [r1, r2] := by
    simp [collectAll, Except.map]
  rw [hcol]
  refine ⟨rfl, ?_, ?_⟩
  · show Except.ok (r0.items ++ (List.map GetItemsResponse.items [r1, r2]).flatten) =
      Except.ok (r0.items ++ (r1.items ++ r2.items))
    simp
  · show Except.ok (r0.items ++ (List.map GetItemsResponse.items [r1, r2]).flatten) =
      Except.ok L
    simp only [List.map_cons, List.map_nil, List.flatten_cons, List.flatten_nil]
    rw [List.append_nil, hi0, hi1, hi2, hmerge]

/-- Witness for C8: a concrete 250-item collection served in slices. -/
theorem pagination_fanout_witness :
    pageEnvW (fetchItemsReq "col" 100 0) =
      .ok { items := allItemsW.take 100,
            pagination := { limit := 100, offset := 0, total := 250 } } ∧
    allItemsW.length = 250 ∧
    (fetchAllItems pageEnvW "col").1 = .ok allItemsW :=
  ⟨rfl, by simp [allItemsW],
   (pagination_fanout pageEnvW "col" allItemsW
      { items := allItemsW.take 100, pagination := { limit := 100, offset := 0, total := 250 } }
      { items := (allItemsW.drop 100).take 100,
        pagination := { limit := 100, offset := 100, total := 250 } }
      { items := (allItemsW.drop 200).take 100,
        pagination := { limit := 100, offset := 200, total := 250 } }
      rfl rfl rfl rfl rfl rfl rfl (by simp [allItemsW])).2.2⟩

/-- C4: for a requested locale map {A(primary), B, C}, the saga issues
exactly one bulk-create call naming all three locales and seeded with
the primary data; only after it settles successfully does it issue
exactly two PATCH update calls — for B then C, in key order — each
against the anchor item's id with the non-publishing flag (no `/live`
suffix, explicit `live = false`); the saga's result is the ordered list
[anchor, B item, C item] of exactly three items sharing the anchor's
id (granted the upstream contract that an update responds with the item
whose id was addressed). If the bulk create fails, no update call is
issued at all. -/
theorem create_all_locales_saga (env : CreateEnv) (c : String) (A B C : Locales)
    (da db dc : PartialItemData) (bulkItems : List Item) (anchor itemB itemC : Item)
    (live : Bool)
    (hAB : A ≠ B) (hAC : A ≠ C)
    (hbulk : env.bulk (bulkCreateRequest c da [A, B, C]) = .ok bulkItems)
    (hfind : bulkItems.find? (fun it => it.cmsLocaleId == A) = some anchor)
    (hupB : env.update (updateItemRequest c anchor.id (withLocale B db) false) = .ok itemB)
    (hupC : env.update (updateItemRequest c anchor.id (withLocale C dc) false) = .ok itemC)
    (hidB : itemB.id = anchor.id) (hidC : itemC.id = anchor.id) :
    (createItemAllLocales env c [(A, da), (B, db), (C, dc)] live A).result =
      .ok [anchor, itemB, itemC] ∧
    (createItemAllLocales env c [(A, da), (B, db), (C, dc)] live A).trace =
      bulkCreateRequest c da [A, B, C] ::
        ([updateItemRequest c anchor.id (withLocale B db) false,
          updateItemRequest c anchor.id (withLocale C dc) false] ++
         (if live then [publishRequest c [anchor.id]] else [])) ∧
    (∀ it, it ∈ [anchor, itemB, itemC] → it.id = anchor.id) ∧
    (∀ env2 : CreateEnv, ∀ e : JsReason,
      env2.bulk (bulkCreateRequest c da [A, B, C]) = .error e →
        (createItemAllLocales env2 c [(A, da), (B, db), (C, dc)] live A).trace =
          [bulkCreateRequest c da [A, B, C]] ∧
        (createItemAllLocales env2 c [(A, da), (B, db), (C, dc)] live A).result =
          .error (.upstream e)) := by
  have hlk : (([(A, da), (B, db), (C, dc)] : List (Locales × PartialItemData)).lookup A) =
      some da := by simp [List.lookup]
  have hba : (B != A) = true := bne_iff_ne.mpr (Ne.symm hAB)
  have hca : (C != A) = true := bne_iff_ne.mpr (Ne.symm hAC)
  have hflt : (([(A, da), (B, db), (C, dc)] : List (Locales × PartialItemData)).filter
      (fun p => p.1 != A)) = [(B, db), (C, dc)] := by
    simp [List.filter, hba, hca]
  have hcol : collectAll [Except.ok itemB, Except.ok itemC] = .ok [itemB, itemC] := by
    simp [collectAll, Except.map]
  refine ⟨?_, ?_, ?_, ?_⟩
  · unfold createItemAllLocales
    simp only [hlk, List.map_cons, List.map_nil, hbulk, hfind, hflt, hupB, hupC, hcol]
    cases live <;> rfl
  · unfold createItemAllLocales
    simp only [hlk, List.map_cons, List.map_nil, hbulk, hfind, hflt, hupB, hupC, hcol]
    cases live <;> rfl
  · intro it hit
    rcases List.mem_cons.mp hit with h | hit
    · rw [h]
    rcases List.mem_cons.mp hit with h | hit
    · rw [h]; exact hidB
    rcases List.mem_cons.mp hit with h | hit
    · rw [h]; exact hidC
    · cases hit
  · intro env2 e h2
    unfold createItemAllLocales
    simp only [hlk, List.map_cons, List.map_nil, h2]
    exact ⟨by trivial, by trivial⟩

/-- Witness for C4 at concrete inputs (English primary, Spanish and
Chinese secondaries, all server answers sharing the anchor id). -/
theorem create_all_locales_saga_witness :
    Locales.ENGLISH ≠ Locales.SPANISH ∧
    (createItemAllLocales createEnvW "col"
      [(Locales.ENGLISH, daW), (Locales.SPANISH, dbW), (Locales.CHINESE, dcW)]
      true Locales.ENGLISH).result = .ok [anchorW, itemBW, itemBW] :=
  ⟨by decide,
   (create_all_locales_saga createEnvW "col" .ENGLISH .SPANISH .CHINESE daW dbW dcW
     [anchorW] anchorW itemBW itemBW true (by decide) (by decide)
     rfl rfl rfl rfl rfl rfl).1⟩

/-- C5: when live publication is requested and the saga succeeds, the
trailing publish of the anchor id is issued strictly after every saga
call (it is last in the trace), its settlement is observed only on the
detached side channel, and the promise returned by
`createItemAllLocales` fulfils with the created items for *every*
possible settlement of the publish call — in particular a publish
failure never rejects the returned promise. -/
theorem trailing_publish_best_effort (env : CreateEnv) (c : String) (A B C : Locales)
    (da db dc : PartialItemData) (bulkItems : List Item) (anchor itemB itemC : Item)
    (hAB : A ≠ B) (hAC : A ≠ C)
    (hbulk : env.bulk (bulkCreateRequest c da [A, B, C]) = .ok bulkItems)
    (hfind : bulkItems.find? (fun it => it.cmsLocaleId == A) = some anchor)
    (hupB : env.update (updateItemRequest c anchor.id (withLocale B db) false) = .ok itemB)
    (hupC : env.update (updateItemRequest c anchor.id (withLocale C dc) false) = .ok itemC) :
    ∀ pub : RequestOptions → Except JsReason Json,
      (createItemAllLocales { env with publish := pub } c
        [(A, da), (B, db), (C, dc)] true A).result = .ok [anchor, itemB, itemC] ∧
      (createItemAllLocales { env with publish := pub } c
        [(A, da), (B, db), (C, dc)] true A).trace =
        [bulkCreateRequest c da [A, B, C],
         updateItemRequest c anchor.id (withLocale B db) false,
         updateItemRequest c anchor.id (withLocale C dc) false,
         publishRequest c [anchor.id]] ∧
      (createItemAllLocales { env with publish := pub } c
        [(A, da), (B, db), (C, dc)] true A).publishOutcome =
        some (pub (publishRequest c [anchor.id])) := by
  intro pub
  have hlk : (([(A, da), (B, db), (C, dc)] : List (Locales × PartialItemData)).lookup A) =
      some da := by simp [List.lookup]
  have hba : (B != A) = true := bne_iff_ne.mpr (Ne.symm hAB)
  have hca : (C != A) = true := bne_iff_ne.mpr (Ne.symm hAC)
  have hflt : (([(A, da), (B, db), (C, dc)] : List (Locales × PartialItemData)).filter
      (fun p => p.1 != A)) = [(B, db), (C, dc)] := by
    simp [List.filter, hba, hca]
  have hcol : collectAll [Except.ok itemB, Except.ok itemC] = .ok [itemB, itemC] := by
    simp [collectAll, Except.map]
  unfold createItemAllLocales
  simp only [hlk, List.map_cons, List.map_nil, hbulk, hfind, hflt, hupB, hupC, hcol]
  exact ⟨rfl, rfl, rfl⟩

/-- Witness for C5: with the concrete environment whose publish call
fails with the repository's observed validation error, the returned
promise still fulfils with the three created items, and the failure is
visible only on the side channel. -/
theorem trailing_publish_best_effort_witness :
    failingPublish (publishRequest "col" [anchorW.id]) =
      .error (.value (.str "ValidationError: Validation Failure")) ∧
    (createItemAllLocales { createEnvW with publish := failingPublish } "col"
      [(Locales.ENGLISH, daW), (Locales.SPANISH, dbW), (Locales.CHINESE, dcW)]
      true Locales.ENGLISH).result = .ok [anchorW, itemBW, itemBW] :=
  ⟨rfl,
   (trailing_publish_best_effort createEnvW "col" .ENGLISH .SPANISH .CHINESE daW dbW dcW
     [anchorW] anchorW itemBW itemBW (by decide) (by decide) rfl rfl rfl rfl
     failingPublish).1⟩

end CLH
